import Mathlib

/-!
Shallow embedding of the `deal` static contract linter.

The rule engine (`deal/linter/_rules.py`) and the contract aliases
(`deal/_aliases.py`) are embedded from the source.  The extractor set,
the contract model, the `Has` decorator class and the transformer are
not part of the available sources; they are modelled from the spec where
a definition carries a doc comment saying so.
-/

set_option linter.unusedVariables false

namespace Deal

/-- Python exception classes relevant to the linter, with their real
inheritance chains (a small fixed fragment of the CPython hierarchy). -/
inductive PyType where
  | baseException
  | exception
  | systemExit
  | valueError
  | typeError
  | lookupError
  | keyError
  | assertionError
  | arithmeticError
  | zeroDivisionError
  | osError
  | fileNotFoundError
  deriving DecidableEq, Repr

/-- The method-resolution chain of a class: itself followed by all its bases,
as in CPython (single inheritance on this fragment). -/
def PyType.ancestors : PyType → List PyType
  | .baseException => [.baseException]
  | .exception => [.exception, .baseException]
  | .systemExit => [.systemExit, .baseException]
  | .valueError => [.valueError, .exception, .baseException]
  | .typeError => [.typeError, .exception, .baseException]
  | .lookupError => [.lookupError, .exception, .baseException]
  | .keyError => [.keyError, .lookupError, .exception, .baseException]
  | .assertionError => [.assertionError, .exception, .baseException]
  | .arithmeticError => [.arithmeticError, .exception, .baseException]
  | .zeroDivisionError => [.zeroDivisionError, .arithmeticError, .exception, .baseException]
  | .osError => [.osError, .exception, .baseException]
  | .fileNotFoundError => [.fileNotFoundError, .osError, .exception, .baseException]

/-- The `__name__` of the class. -/
def PyType.name : PyType → String
  | .baseException => "BaseException"
  | .exception => "Exception"
  | .systemExit => "SystemExit"
  | .valueError => "ValueError"
  | .typeError => "TypeError"
  | .lookupError => "LookupError"
  | .keyError => "KeyError"
  | .assertionError => "AssertionError"
  | .arithmeticError => "ArithmeticError"
  | .zeroDivisionError => "ZeroDivisionError"
  | .osError => "OSError"
  | .fileNotFoundError => "FileNotFoundError"

/-- Python's `issubclass` on this fragment of the class hierarchy. -/
def issubclass (a b : PyType) : Bool := a.ancestors.contains b

/-- Python's `issubclass(exc, tuple_of_types)`: true when `exc` is a subclass
of at least one member. -/
def issubclassAny (a : PyType) (ts : List PyType) : Bool := ts.any (fun t => issubclass a t)

/-- A Python value as far as validators and extracted tokens need it. -/
inductive PyValue where
  | none
  | bool (b : Bool)
  | int (n : Int)
  | str (s : String)
  deriving DecidableEq, Repr

/-- Python truthiness of a `PyValue`. -/
def PyValue.truthy : PyValue → Bool
  | .none => false
  | .bool b => b
  | .int n => n ≠ 0
  | .str s => !s.isEmpty

/-- `isinstance(v, str)`. -/
def PyValue.isStr : PyValue → Bool
  | .str _ => true
  | _ => false

/-- The value of a raised-error token: a resolved exception class, or the
bare identifier kept as a string when the name cannot be resolved. -/
inductive ExcValue where
  | typ (t : PyType)
  | str (s : String)
  deriving DecidableEq, Repr

/-- `str(exc)` as `CheckRaises` renders a token value: the class `__name__`
for a resolved class, the string itself otherwise. -/
def ExcValue.render : ExcValue → String
  | .typ t => t.name
  | .str s => s

/-- A diagnostic record (`deal/linter/_error.py` interface as used by the
rules): numeric code, message text, offending value, source position. -/
structure Error where
  code : Nat
  text : String
  value : String
  row : Nat
  col : Nat
  deriving DecidableEq, Repr

mutual
/-- A function-body statement, at the abstraction level the extractor set
consumes: terminal returns, explicit raises, asserts, side-effect-marker
statements, calls, and `if`/`else` branching. -/
inductive Stmt where
  | ret (line col : Nat) (value : Option PyValue)
  | raiseStmt (line col : Nat) (exc : Option ExcValue)
  | assertStmt (line col : Nat) (cond : String)
  | markerStmt (line col : Nat) (marker : String)
  | callStmt (line col : Nat) (fname : String) (args : List PyValue)
  | ite (thn els : Body)
  | other
  deriving DecidableEq, Repr

/-- A statement sequence. -/
inductive Body where
  | nil
  | cons (s : Stmt) (rest : Body)
  deriving DecidableEq, Repr
end

/-- A token produced by `get_exceptions`. -/
structure ExcToken where
  value : ExcValue
  line : Nat
  col : Nat
  deriving DecidableEq, Repr

/-- A token produced by `get_asserts`: the asserted condition with position. -/
structure AssertToken where
  value : String
  line : Nat
  col : Nat
  deriving DecidableEq, Repr

/-- A token produced by `get_markers`: one side-effect marker with position. -/
structure MarkerToken where
  marker : String
  line : Nat
  col : Nat
  deriving DecidableEq, Repr

/-- A token produced by `get_pre`: offending call text plus the optional
violation message, with position. -/
structure PreToken where
  value : String
  marker : Option String
  line : Nat
  col : Nat
  deriving DecidableEq, Repr

/-- Stub knowledge base: mapping from a called name to the error categories
the call may raise (`deal/linter/_stub.py` interface, modelled from the
spec: lookup yields the empty set for an unknown path). -/
def Stubs := List (String × List ExcValue)

/-- Outcome of running a contract validator on candidate values:
either a binding failure (`NameError`) or a successful evaluation result. -/
inductive RunResult where
  | nameError
  | ok (v : PyValue)

/-- Result slot of a reconstructed example: a static literal or the
UNKNOWN sentinel, which is distinct from every `PyValue`. -/
inductive ExampleResult where
  | unknown
  | val (v : PyValue)
  deriving DecidableEq, Repr

/-- A reconstructed example: positional arguments, keyword arguments, and
the expected result or UNKNOWN. -/
structure Example where
  args : List PyValue
  kwargs : List (String × PyValue)
  result : ExampleResult
  deriving Repr

/-- The body of a validator lambda, at the level `get_example` inspects it:
either the self-call pattern (call the owning function by name with literal
arguments, compare to an expected literal) or anything else. -/
inductive LamBody where
  | selfCall (fname : String) (args : List PyValue)
      (kwargs : List (String × PyValue)) (result : ExampleResult)
  | otherBody
  deriving Repr

/-- A contract argument node as the rules inspect it: a lambda (with its
source position and body shape), a string literal, an exception reference,
or anything else. -/
inductive ContractArg where
  | lam (line col : Nat) (body : LamBody)
  | strLit (s : String)
  | excRef (e : ExcValue)
  | otherArg
  deriving Repr

/-- The category of a contract (`deal/linter/_contract.py::Category`,
modelled from the spec's fixed category list). -/
inductive Category where
  | Pre
  | Post
  | Ensure
  | Raises
  | Has
  | Reason
  | Example
  | Safe
  | Pure
  deriving DecidableEq, Repr

/-- A precondition validator of a callee reachable from a call site, as the
resolution context exposes it to `get_pre`. -/
def PreValidator := List PyValue → RunResult

/-- A resolution context: name bindings visible at the contract attachment
site, mapping a callee name to that callee's precondition validators. -/
def Ctx := List (String × List PreValidator)

/-- One declared contract (`deal/linter/_contract.py` interface as used by
the rules, modelled from the spec): category, argument expressions, declared
exception set, the validator runner, and the resolution context. -/
structure Contract where
  category : Category
  args : List ContractArg
  exceptions : List ExcValue
  run : List PyValue → List (String × PyValue) → RunResult
  context : Ctx

/-- One function definition plus its resolved, ordered contract list. -/
structure Func where
  name : String
  line : Nat
  col : Nat
  body : Body
  contracts : List Contract

mutual
/-- Modelled from the spec: `get_exceptions` on one statement — a token per
explicit throw (resolved class, or identifier kept as a string; an
unresolvable constructed call is skipped), per assert statement (canonical
assertion-error category), per call covered by the stub knowledge base,
recursing into branches. -/
def get_exceptions_stmt (stubs : Stubs) : Stmt → List ExcToken
  | .raiseStmt l c (some e) => [⟨e, l, c⟩]
  | .raiseStmt _ _ Option.none => []
  | .assertStmt l c _ => [⟨.typ .assertionError, l, c⟩]
  | .callStmt l c fname _ =>
    match stubs.lookup fname with
    | some excs => excs.map (fun e => ⟨e, l, c⟩)
    | Option.none => []
  | .ite t e => get_exceptions stubs t ++ get_exceptions stubs e
  | _ => []

/-- Modelled from the spec: `get_exceptions` over a statement sequence. -/
def get_exceptions (stubs : Stubs) : Body → List ExcToken
  | .nil => []
  | .cons s rest => get_exceptions_stmt stubs s ++ get_exceptions stubs rest
end

mutual
/-- Modelled from the spec: `get_asserts` on one statement — a token per
assert statement with its condition as value, recursing into branches. -/
def get_asserts_stmt : Stmt → List AssertToken
  | .assertStmt l c cond => [⟨cond, l, c⟩]
  | .ite t e => get_asserts t ++ get_asserts e
  | _ => []

/-- Modelled from the spec: `get_asserts` over a statement sequence. -/
def get_asserts : Body → List AssertToken
  | .nil => []
  | .cons s rest => get_asserts_stmt s ++ get_asserts rest
end

mutual
/-- Modelled from the spec: `get_markers` on one statement — a token per
matched side-effect pattern, each naming exactly one marker category,
recursing into branches. -/
def get_markers_stmt : Stmt → List MarkerToken
  | .markerStmt l c m => [⟨m, l, c⟩]
  | .ite t e => get_markers t ++ get_markers e
  | _ => []

/-- Modelled from the spec: `get_markers` over a statement sequence. -/
def get_markers : Body → List MarkerToken
  | .nil => []
  | .cons s rest => get_markers_stmt s ++ get_markers rest
end

mutual
/-- Modelled from the spec: whether one statement guarantees an explicit
return on every terminal control-flow path through it. -/
def stmt_always_returns : Stmt → Bool
  | .ret _ _ _ => true
  | .ite t e => has_returns t && has_returns e
  | _ => false

/-- Modelled from the spec: `has_returns` — true only if every terminal
control-flow path of the body contains an explicit return. -/
def has_returns : Body → Bool
  | .nil => false
  | .cons s rest => stmt_always_returns s || has_returns rest
end

/-- Modelled from the spec: running one precondition validator of a callee
on the literal arguments of a call site; a binding failure is skipped, a
string result is a violation with that message, a falsy result is a generic
violation, a truthy result passes. -/
def pre_token_of (l c : Nat) (fname : String) (args : List PyValue)
    (v : PreValidator) : Option PreToken :=
  match v args with
  | .nameError => Option.none
  | .ok (.str s) => some ⟨fname, some s, l, c⟩
  | .ok r => if r.truthy then Option.none else some ⟨fname, Option.none, l, c⟩

mutual
/-- Modelled from the spec: `get_pre` on one statement — for every call to
another contracted function resolvable through the context, re-validate that
callee's precondition on the call's literal arguments and yield a token per
violation, recursing into branches. -/
def get_pre_stmt (context : Ctx) : Stmt → List PreToken
  | .callStmt l c fname args =>
    match context.lookup fname with
    | some pres => pres.filterMap (pre_token_of l c fname args)
    | Option.none => []
  | .ite t e => get_pre context t ++ get_pre context e
  | _ => []

/-- Modelled from the spec: `get_pre` over a statement sequence. -/
def get_pre (context : Ctx) : Body → List PreToken
  | .nil => []
  | .cons s rest => get_pre_stmt context s ++ get_pre context rest
end

/-- Modelled from the spec: `get_value` on a contract argument node — the
inferred literal value; marker arguments are string literals, anything not
statically resolvable degrades to an empty name. -/
def get_value : ContractArg → String
  | .strLit s => s
  | _ => ""

/-- Modelled from the spec: `get_example` — recognizes a validator body
shaped as a call of the owning function by name with literal arguments
compared to an expected literal, and reconstructs the Example; none when
the pattern is absent; the result field is UNKNOWN when not itself a
static literal. -/
def get_example (b : LamBody) (func_name : String) : Option Example :=
  match b with
  | .selfCall fname args kwargs result =>
    if fname = func_name then some ⟨args, kwargs, result⟩ else Option.none
  | .otherBody => Option.none

/-- `Rule._validate`: run the contract's validator; a `NameError` (contract
dependencies cannot be resolved) skips the check, a string result is a
diagnostic with that string as message, any other falsy result is a
diagnostic with the rule's generic message, a truthy result passes. -/
def Rule.validate (code : Nat) (message : String) (contract : Contract)
    (args : List PyValue) (kwargs : List (String × PyValue))
    (row col : Nat) (value : String) : Option Error :=
  match contract.run args kwargs with
  | .nameError => Option.none
  | .ok result =>
    match result with
    | .str s => some ⟨code, s, value, row, col⟩
    | r => if r.truthy then Option.none else some ⟨code, message, value, row, col⟩

/-- `CheckPre.code`. -/
def CheckPre.code : Nat := 11

/-- `CheckPre.message`. -/
def CheckPre.message : String := "pre contract error"

/-- Python's `token.marker or self.message` for an `Optional[str]` marker. -/
def markerOr (marker : Option String) (message : String) : String :=
  match marker with
  | some m => if m.isEmpty then message else m
  | Option.none => message

/-- `CheckPre.__call__`: only contracted functions are checked; the first
contract's context resolves callee names inside the body. -/
def CheckPre.call (func : Func) : List Error :=
  match func.contracts with
  | [] => []
  | c :: _ =>
    (get_pre c.context func.body).map (fun token =>
      ⟨CheckPre.code, markerOr token.marker CheckPre.message, token.value,
        token.line, token.col⟩)

/-- `CheckExamples.code`. -/
def CheckExamples.code : Nat := 13

/-- `CheckExamples.message`. -/
def CheckExamples.message : String := "example violates contract"

/-- Python's `dict(kwargs, result=v)`: the keyword mapping with the key
`result` bound to `v`. -/
def withResult (kwargs : List (String × PyValue)) (v : PyValue) :
    List (String × PyValue) :=
  kwargs.filter (fun p => p.1 ≠ "result") ++ [("result", v)]

/-- The errors `CheckExamples._check` yields for one other contract of the
same function, given the reconstructed example and the lambda's position. -/
def CheckExamples.checkOther (ex : Example) (line col : Nat)
    (other : Contract) : List Error :=
  (if other.category = Category.Pre then
    (Rule.validate CheckExamples.code CheckExamples.message other
      ex.args ex.kwargs line col "deal.pre").toList
  else []) ++
  (if other.category = Category.Post then
    match ex.result with
    | .unknown => []
    | .val v =>
      (Rule.validate CheckExamples.code CheckExamples.message other
        [v] [] line col "deal.post").toList
  else []) ++
  (if other.category = Category.Ensure then
    match ex.result with
    | .unknown => []
    | .val v =>
      (Rule.validate CheckExamples.code CheckExamples.message other
        ex.args (withResult ex.kwargs v) line col "deal.ensure").toList
  else [])

/-- `CheckExamples._check`: reconstruct the example from the first argument
of the EXAMPLE contract when it is a lambda matching the self-call pattern,
then re-validate it against every other contract of the function. -/
def CheckExamples.check (func : Func) (contract : Contract) : List Error :=
  match contract.args.head? with
  | some (.lam line col lb) =>
    match get_example lb func.name with
    | Option.none => []
    | some ex => func.contracts.flatMap (CheckExamples.checkOther ex line col)
  | _ => []

/-- `CheckExamples.__call__`: run the check for every EXAMPLE contract. -/
def CheckExamples.call (func : Func) : List Error :=
  func.contracts.flatMap (fun contract =>
    if contract.category = Category.Example then
      CheckExamples.check func contract
    else [])

/-- `CheckRaises.code`. -/
def CheckRaises.code : Nat := 21

/-- `CheckRaises.message`. -/
def CheckRaises.message : String := "raises contract error"

/-- `CheckRaises._check`: the allowed set is this contract's declared
exceptions; every extracted raised-error token not covered by identity or,
for resolved classes, by subclass relation against the allowed classes,
yields a diagnostic carrying the offending type's name. -/
def CheckRaises.check (func : Func) (contract : Contract) (stubs : Stubs) :
    List Error :=
  let allowed := contract.exceptions
  let allowedTypes := allowed.filterMap (fun e =>
    match e with
    | .typ t => some t
    | .str _ => Option.none)
  (get_exceptions stubs func.body).filterMap (fun token =>
    if token.value ∈ allowed then Option.none
    else
      match token.value with
      | .typ t =>
        if issubclassAny t allowedTypes then Option.none
        else some ⟨CheckRaises.code, CheckRaises.message, t.name,
          token.line, token.col⟩
      | .str s => some ⟨CheckRaises.code, CheckRaises.message, s,
          token.line, token.col⟩)

/-- Whether a contract's category is one of RAISES, SAFE, PURE. -/
def raisesCat (c : Category) : Bool :=
  c = Category.Raises || c = Category.Safe || c = Category.Pure

/-- `CheckRaises.__call__`: run the check for each RAISES, SAFE or PURE
contract of the function. -/
def CheckRaises.call (func : Func) (stubs : Stubs) : List Error :=
  func.contracts.flatMap (fun contract =>
    if raisesCat contract.category then CheckRaises.check func contract stubs
    else [])

/-- `CheckAsserts.code`. -/
def CheckAsserts.code : Nat := 31

/-- `CheckAsserts.message`. -/
def CheckAsserts.message : String := "assert error"

/-- Python's `s.startswith(p)`. -/
def pyStartswith (s p : String) : Bool := p.data.isPrefixOf s.data

/-- `CheckAsserts.__call__`: asserts in tests (functions named `test_...`)
are not validated; otherwise one diagnostic per assert token, carrying the
asserted condition as its value. -/
def CheckAsserts.call (func : Func) : List Error :=
  if pyStartswith func.name "test_" then []
  else
    (get_asserts func.body).map (fun token =>
      ⟨CheckAsserts.code, CheckAsserts.message, token.value,
        token.line, token.col⟩)

/-- The declared marker set of the runtime `Has` contract object
(`deal/_decorators.py::Has`, modelled from the spec: the declared
side-effect marker set of the function). -/
structure Has where
  markers : List String

/-- Modelled from the spec: the `has_{marker}` properties of `Has` and the
fallback membership test collapse to membership in the declared set. -/
def Has.hasMarker (h : Has) (m : String) : Bool := h.markers.contains m

/-- `CheckMarkers.code`. -/
def CheckMarkers.code : Nat := 40

/-- `CheckMarkers.message`. -/
def CheckMarkers.message : String := "missed marker"

/-- `CheckMarkers.codes`: the marker-name to sub-code mapping. -/
def CheckMarkers.codes : List (String × Nat) :=
  [("global", 41), ("import", 42), ("io", 43), ("read", 44),
   ("write", 45), ("stdout", 46), ("stderr", 47), ("network", 48)]

/-- `CheckMarkers._check`: a function without declared I/O must return on
every path, else one diagnostic with the io sub-code at the function's
position; then every extracted marker token outside the declared set yields
a diagnostic with its marker-specific sub-code, falling back to 40. -/
def CheckMarkers.check (func : Func) (has : Has) : List Error :=
  (if !has.hasMarker "io" && !has_returns func.body then
    [⟨(CheckMarkers.codes.lookup "io").getD 40, CheckMarkers.message, "io",
      func.line, func.col⟩]
  else []) ++
  (get_markers func.body).filterMap (fun token =>
    if has.hasMarker token.marker then Option.none
    else some ⟨(CheckMarkers.codes.lookup token.marker).getD 40,
      CheckMarkers.message, token.marker, token.line, token.col⟩)

/-- The marker list a contract contributes to `CheckMarkers`: the inferred
values of a HAS contract's arguments, the empty list for PURE, nothing for
any other category. -/
def markersOf (contract : Contract) : Option (List String) :=
  match contract.category with
  | Category.Has => some (contract.args.map get_value)
  | Category.Pure => some []
  | _ => Option.none

/-- The contract-scanning loop of `CheckMarkers.__call__`: the first HAS or
PURE contract determines the declared marker set and the loop returns right
after checking it. -/
def CheckMarkers.scan (func : Func) : List Contract → List Error
  | [] => []
  | c :: rest =>
    match markersOf c with
    | some ms => CheckMarkers.check func ⟨ms⟩
    | Option.none => CheckMarkers.scan func rest

/-- `CheckMarkers.__call__`. -/
def CheckMarkers.call (func : Func) : List Error :=
  CheckMarkers.scan func func.contracts

/-- A contract attachment as recorded on a decorated function: the
category together with its declared arguments
(`deal/_decorators.py` wrapper objects, modelled from the spec: the core
only consumes the declared contract shape, never call-time behavior). -/
inductive AppliedContract where
  | raisesA (excs : List ExcValue)
  | hasA (markers : List String)
  deriving DecidableEq, Repr

/-- A function value as the decorators see it: a base payload plus the
stack of contract attachments applied so far (innermost last). -/
structure PyFunc where
  payload : String
  wrappers : List AppliedContract
  deriving DecidableEq, Repr

/-- `deal.raises(*exceptions)` applied to a function: wrap it, recording a
RAISES contract with the declared exception list (`_aliases.py::raises`,
wrapper recording modelled from the spec). -/
def raises (excs : List ExcValue) (f : PyFunc) : PyFunc :=
  ⟨f.payload, AppliedContract.raisesA excs :: f.wrappers⟩

/-- `deal.has(*markers)` applied to a function (`_aliases.py::has`). -/
def has (markers : List String) (f : PyFunc) : PyFunc :=
  ⟨f.payload, AppliedContract.hasA markers :: f.wrappers⟩

/-- `deal.safe` used directly as a decorator (`_aliases.py::safe` with
`_func` given): `raises()(_func)`. -/
def safe (f : PyFunc) : PyFunc := raises [] f

/-- `deal.chain(*contracts)`: apply each contract in order
(`_aliases.py::chain`). -/
def chain (contracts : List (PyFunc → PyFunc)) (f : PyFunc) : PyFunc :=
  contracts.foldl (fun g c => c g) f

/-- `deal.pure` (`_aliases.py::pure`): `chain(has(), safe)(_func)`. -/
def pure (f : PyFunc) : PyFunc := chain [has [], safe] f

/-- A decorator line above a function definition as the transformer sees
it: a RAISES attachment with its listed error identifiers, or any other
line kept verbatim. -/
inductive Deco where
  | raisesDeco (excs : List ExcValue)
  | otherDeco (text : String)
  deriving DecidableEq, Repr

/-- A function definition in module source as the transformer sees it:
its decorator lines, name and body. -/
structure FuncDef where
  decos : List Deco
  name : String
  body : Body
  deriving DecidableEq, Repr

/-- One top-level item of a module: a function definition, or any other
source text kept verbatim. -/
inductive ModItem where
  | funcItem (f : FuncDef)
  | textItem (s : String)
  deriving DecidableEq, Repr

/-- A module: its top-level items in source order. -/
def Module := List ModItem

/-- The RAISES-category error identifiers currently declared on a
function's decorator lines. -/
def declaredRaises (decos : List Deco) : List ExcValue :=
  decos.flatMap (fun d =>
    match d with
    | .raisesDeco excs => excs
    | .otherDeco _ => [])

/-- The undeclared raised-error categories of a function definition: the
distinct raised-error values of the body not covered by the declared
RAISES identifiers. -/
def missingRaises (f : FuncDef) : List ExcValue :=
  (((get_exceptions [] f.body).map (fun t => t.value)).dedup).filter
    (fun e => !(declaredRaises f.decos).contains e)

/-- Modelled from the spec: the Transformer on one function definition —
compare the declared RAISES identifiers against the raised-error tokens of
the body; when some raised category is undeclared, insert one new RAISES
attachment listing the undeclared categories directly above the function
and above any pre-existing attachments, leaving everything else unchanged;
no-op when nothing is missing. -/
def transformFuncDef (f : FuncDef) : FuncDef :=
  if (missingRaises f).isEmpty then f
  else ⟨Deco.raisesDeco (missingRaises f) :: f.decos, f.name, f.body⟩

/-- The transformer on one module item: rewrite a function definition,
reproduce any other text exactly. -/
def itemTransform : ModItem → ModItem
  | .funcItem f => ModItem.funcItem (transformFuncDef f)
  | .textItem s => ModItem.textItem s

/-- Modelled from the spec: `Transformer.transform` over a whole module —
rewrite each function definition, reproduce all other text exactly. -/
def transform (m : Module) : Module :=
  m.map itemTransform

/-- C2: for every contract validation performed by any rule, a binding
failure (`NameError`) skips the check and produces no diagnostic; a string
result produces a diagnostic with that string as its message; any other
falsy result produces a diagnostic with the rule's generic message; a
truthy non-string result produces no diagnostic. -/
theorem claim_c2_validate (code : Nat) (message : String) (contract : Contract)
    (args : List PyValue) (kwargs : List (String × PyValue))
    (row col : Nat) (value : String) :
    (contract.run args kwargs = RunResult.nameError →
      Rule.validate code message contract args kwargs row col value = Option.none) ∧
    (∀ s, contract.run args kwargs = RunResult.ok (PyValue.str s) →
      Rule.validate code message contract args kwargs row col value =
        some ⟨code, s, value, row, col⟩) ∧
    (∀ v, contract.run args kwargs = RunResult.ok v → v.isStr = false →
      v.truthy = false →
      Rule.validate code message contract args kwargs row col value =
        some ⟨code, message, value, row, col⟩) ∧
    (∀ v, contract.run args kwargs = RunResult.ok v → v.isStr = false →
      v.truthy = true →
      Rule.validate code message contract args kwargs row col value =
        Option.none) := by
  refine ⟨?_, ?_, ?_, ?_⟩
  · intro h
    simp [Rule.validate, h]
  · intro s h
    simp [Rule.validate, h]
  · intro v h hs ht
    cases v with
    | str s => simp [PyValue.isStr] at hs
    | none => simp [Rule.validate, h, ht]
    | bool b => simp [Rule.validate, h, ht]
    | int n => simp [Rule.validate, h, ht]
  · intro v h hs ht
    cases v with
    | str s => simp [PyValue.isStr] at hs
    | none => simp [PyValue.truthy] at ht
    | bool b => simp [Rule.validate, h, ht]
    | int n => simp [Rule.validate, h, ht]

/-- A contract whose validator hits a binding failure. -/
def contractNameError : Contract :=
  ⟨Category.Post, [], [], fun _ _ => RunResult.nameError, []⟩

/-- A contract whose validator returns a string. -/
def contractStr : Contract :=
  ⟨Category.Post, [], [], fun _ _ => RunResult.ok (PyValue.str "boom"), []⟩

/-- A contract whose validator returns `False`. -/
def contractFalse : Contract :=
  ⟨Category.Post, [], [], fun _ _ => RunResult.ok (PyValue.bool false), []⟩

/-- A contract whose validator returns `True`. -/
def contractTrue : Contract :=
  ⟨Category.Post, [], [], fun _ _ => RunResult.ok (PyValue.bool true), []⟩

/-- Witness for C2 at four concrete contracts, one per validator outcome. -/
theorem claim_c2_validate_witness :
    Rule.validate 12 "post contract error" contractNameError [] [] 1 0 "v" =
      Option.none ∧
    Rule.validate 12 "post contract error" contractStr [] [] 1 0 "v" =
      some ⟨12, "boom", "v", 1, 0⟩ ∧
    Rule.validate 12 "post contract error" contractFalse [] [] 1 0 "v" =
      some ⟨12, "post contract error", "v", 1, 0⟩ ∧
    Rule.validate 12 "post contract error" contractTrue [] [] 1 0 "v" =
      Option.none :=
  ⟨(claim_c2_validate 12 "post contract error" contractNameError [] [] 1 0 "v").1 rfl,
   (claim_c2_validate 12 "post contract error" contractStr [] [] 1 0 "v").2.1 "boom" rfl,
   (claim_c2_validate 12 "post contract error" contractFalse [] [] 1 0 "v").2.2.1
     (PyValue.bool false) rfl rfl rfl,
   (claim_c2_validate 12 "post contract error" contractTrue [] [] 1 0 "v").2.2.2
     (PyValue.bool true) rfl rfl rfl⟩

/-- C6: the precondition call-site rule produces no diagnostics for a
function with an empty contract list; for a function with at least one
contract it resolves callee names using the first contract's resolution
context. -/
theorem claim_c6_pre (func : Func) :
    (func.contracts = [] → CheckPre.call func = []) ∧
    (∀ c rest, func.contracts = c :: rest →
      CheckPre.call func = (get_pre c.context func.body).map (fun token =>
        ⟨11, markerOr token.marker "pre contract error", token.value,
          token.line, token.col⟩)) := by
  constructor
  · intro h
    simp [CheckPre.call, h]
  · intro c rest h
    simp [CheckPre.call, h, CheckPre.code, CheckPre.message]

/-- A callee precondition validator that always reports a violation. -/
def preValFail : PreValidator := fun _ => RunResult.ok (PyValue.bool false)

/-- A context binding the callee name `g` to a failing precondition. -/
def ctxSample : Ctx := [("g", [preValFail])]

/-- A PRE contract carrying `ctxSample` as its resolution context. -/
def contractWithCtx : Contract :=
  ⟨Category.Pre, [], [], fun _ _ => RunResult.ok (PyValue.bool true), ctxSample⟩

/-- A body consisting of one call to `g`. -/
def bodyCallG : Body := Body.cons (Stmt.callStmt 3 4 "g" [PyValue.int 1]) Body.nil

/-- A function with no contracts around `bodyCallG`. -/
def funcNoContracts : Func := ⟨"f", 1, 0, bodyCallG, []⟩

/-- A function with one contract around `bodyCallG`. -/
def funcWithPre : Func := ⟨"f", 1, 0, bodyCallG, [contractWithCtx]⟩

/-- Witness for C6: no contracts means no diagnostics; with a contract the
first contract's context resolves the call to `g` and flags it. -/
theorem claim_c6_pre_witness :
    CheckPre.call funcNoContracts = [] ∧
    CheckPre.call funcWithPre = [⟨11, "pre contract error", "g", 3, 4⟩] := by
  refine ⟨(claim_c6_pre funcNoContracts).1 rfl, ?_⟩
  rw [(claim_c6_pre funcWithPre).2 contractWithCtx [] rfl]
  rfl

/-- C7: the `safe` alias applied to a function equals `raises()` with no
exceptions applied to it, and the `pure` alias equals `has()` with no
markers followed by `safe`. -/
theorem claim_c7_aliases (f : PyFunc) :
    safe f = raises [] f ∧ pure f = safe (has [] f) :=
  ⟨rfl, rfl⟩

/-- C9: the assertion rule emits one diagnostic per assert statement,
carrying the asserted condition as its value, for every function not named
with the `test_` prefix, and emits none for functions so named. -/
theorem claim_c9_asserts (func : Func) :
    (pyStartswith func.name "test_" = true → CheckAsserts.call func = []) ∧
    (pyStartswith func.name "test_" = false →
      CheckAsserts.call func = (get_asserts func.body).map (fun token =>
        ⟨31, "assert error", token.value, token.line, token.col⟩)) := by
  constructor
  · intro h
    simp [CheckAsserts.call, h]
  · intro h
    simp [CheckAsserts.call, h, CheckAsserts.code, CheckAsserts.message]

/-- A body consisting of one assert statement. -/
def bodyAssert : Body := Body.cons (Stmt.assertStmt 2 4 "x > 0") Body.nil

/-- A test-named function containing an assert. -/
def funcTestNamed : Func := ⟨"test_foo", 1, 0, bodyAssert, []⟩

/-- A plainly named function containing an assert. -/
def funcPlain : Func := ⟨"foo", 1, 0, bodyAssert, []⟩

/-- Witness for C9: the test-named function is exempt, the plain one gets
one diagnostic carrying the asserted condition. -/
theorem claim_c9_asserts_witness :
    CheckAsserts.call funcTestNamed = [] ∧
    CheckAsserts.call funcPlain = [⟨31, "assert error", "x > 0", 2, 4⟩] := by
  refine ⟨(claim_c9_asserts funcTestNamed).1 (by decide), ?_⟩
  rw [(claim_c9_asserts funcPlain).2 (by decide)]
  rfl

/-- General helper: a `filterMap` whose step is a guarded `some` is a
`filter` followed by a `map`. -/
theorem filterMap_eq_filter_map {α β : Type} (p : α → Bool) (g : α → β)
    (f : α → Option β) (hf : ∀ a, f a = if p a then some (g a) else Option.none)
    (l : List α) : l.filterMap f = (l.filter p).map g := by
  induction l with
  | nil => rfl
  | cons a l ih =>
    rw [List.filterMap_cons, List.filter_cons, hf a]
    by_cases hp : p a = true
    · simp [hp, ih]
    · simp [Bool.not_eq_true] at hp
      simp [hp, ih]

/-- The declared exception classes among an allowed set. -/
def allowedTypesOf (allowed : List ExcValue) : List PyType :=
  allowed.filterMap (fun e =>
    match e with
    | .typ t => some t
    | .str _ => Option.none)

/-- Coverage of a raised-error value by an allowed set: direct identity, or
a subclass relation against the allowed classes for a resolved class. -/
def coveredBy (allowed : List ExcValue) (v : ExcValue) : Bool :=
  if v ∈ allowed then true
  else
    match v with
    | .typ t => issubclassAny t (allowedTypesOf allowed)
    | .str _ => false

/-- Following the claim's words: the union of the declared exception sets
of all RAISES, SAFE and PURE contracts of a function. -/
def unionAllowed (func : Func) : List ExcValue :=
  func.contracts.flatMap (fun c =>
    if raisesCat c.category then c.exceptions else [])

/-- Following the claim's words: one diagnostic exactly per extracted
raised-error token not covered by the unioned allowed set. -/
def claimRaisesErrors (func : Func) (stubs : Stubs) : List Error :=
  ((get_exceptions stubs func.body).filter
    (fun t => !coveredBy (unionAllowed func) t.value)).map
    (fun t => ⟨21, "raises contract error", t.value.render, t.line, t.col⟩)

/-- Helper: `CheckRaises._check` filters against one contract's own
declared set and renders each uncovered token. -/
theorem checkRaises_check_eq (func : Func) (c : Contract) (stubs : Stubs) :
    CheckRaises.check func c stubs =
      ((get_exceptions stubs func.body).filter
        (fun t => !coveredBy c.exceptions t.value)).map
        (fun t => ⟨21, "raises contract error", t.value.render, t.line, t.col⟩) := by
  unfold CheckRaises.check
  refine filterMap_eq_filter_map _ _ _ ?_ _
  intro a
  rcases a with ⟨v, line, col⟩
  rcases v with t | s
  · by_cases hm : ExcValue.typ t ∈ c.exceptions
    · simp [coveredBy, hm]
    · by_cases hs : issubclassAny t (allowedTypesOf c.exceptions) = true
      · have hs' := hs
        simp only [allowedTypesOf] at hs'
        simp [coveredBy, hm, allowedTypesOf, hs, hs']
      · simp only [Bool.not_eq_true] at hs
        have hs' := hs
        simp only [allowedTypesOf] at hs'
        simp [coveredBy, hm, allowedTypesOf, hs, hs', CheckRaises.code,
          CheckRaises.message, ExcValue.render]
  · by_cases hm : ExcValue.str s ∈ c.exceptions
    · simp [coveredBy, hm]
    · simp [coveredBy, hm, CheckRaises.code, CheckRaises.message,
        ExcValue.render]

/-- A RAISES contract allowing only `ValueError`. -/
def contractRaisesVE : Contract :=
  ⟨Category.Raises, [], [ExcValue.typ PyType.valueError],
    fun _ _ => RunResult.ok (PyValue.bool true), []⟩

/-- A RAISES contract allowing only `KeyError`. -/
def contractRaisesKE : Contract :=
  ⟨Category.Raises, [], [ExcValue.typ PyType.keyError],
    fun _ _ => RunResult.ok (PyValue.bool true), []⟩

/-- A body consisting of one `raise ValueError`. -/
def bodyRaiseVE : Body :=
  Body.cons (Stmt.raiseStmt 2 4 (some (ExcValue.typ PyType.valueError))) Body.nil

/-- A function raising `ValueError` under two RAISES contracts that
together cover it. -/
def funcTwoRaises : Func :=
  ⟨"f", 1, 0, bodyRaiseVE, [contractRaisesVE, contractRaisesKE]⟩

/-- C1 counterexample: on a function with contracts `raises(ValueError)`
and `raises(KeyError)` whose body raises `ValueError`, the unioned allowed
set covers the token, so the claim predicts no diagnostic; the rule checks
each contract against its own set and flags the raise once. -/
theorem claim_c1_counterexample :
    claimRaisesErrors funcTwoRaises [] = [] ∧
    CheckRaises.call funcTwoRaises [] =
      [⟨21, "raises contract error", "ValueError", 2, 4⟩] := by
  constructor <;> rfl

/-- C1 amended: the exception-coverage rule checks each RAISES, SAFE or
PURE contract separately against that contract's own declared set (no
union across contracts): for each such contract, a diagnostic is produced
exactly for each extracted raised-error token whose value is not covered
by direct identity or by a subclass relation against that contract's
declared types, carrying the offending type's name. -/
theorem claim_c1_amended (func : Func) (stubs : Stubs) :
    CheckRaises.call func stubs =
      func.contracts.flatMap (fun c =>
        if raisesCat c.category then
          ((get_exceptions stubs func.body).filter
            (fun t => !coveredBy c.exceptions t.value)).map
            (fun t => ⟨21, "raises contract error", t.value.render,
              t.line, t.col⟩)
        else []) := by
  unfold CheckRaises.call
  congr 1
  funext c
  by_cases h : raisesCat c.category = true
  · simp [h, checkRaises_check_eq]
  · simp only [Bool.not_eq_true] at h
    simp [h]

/-- Following the claim's words: the marker-specific sub-code (41 global,
42 import, 43 io, 44 read, 45 write, 46 stdout, 47 stderr, 48 network),
falling back to 40 for unrecognized marker names. -/
def claimMarkerCode (m : String) : Nat :=
  if m = "global" then 41
  else if m = "import" then 42
  else if m = "io" then 43
  else if m = "read" then 44
  else if m = "write" then 45
  else if m = "stdout" then 46
  else if m = "stderr" then 47
  else if m = "network" then 48
  else 40

/-- Helper: the rule's sub-code table realizes the claim's code mapping. -/
theorem codes_lookup_eq (m : String) :
    (CheckMarkers.codes.lookup m).getD 40 = claimMarkerCode m := by
  simp only [CheckMarkers.codes, claimMarkerCode, List.lookup]
  repeat' split <;> simp_all

/-- Helper: the contract-scanning loop of `CheckMarkers` lands on the first
contract contributing a marker set and ignores everything after it. -/
theorem checkMarkers_scan_first (func : Func) (pre : List Contract)
    (c : Contract) (rest : List Contract) (ms : List String)
    (hpre : ∀ c' ∈ pre, markersOf c' = Option.none)
    (hc : markersOf c = some ms) :
    CheckMarkers.scan func (pre ++ c :: rest) = CheckMarkers.check func ⟨ms⟩ := by
  induction pre with
  | nil => simp [CheckMarkers.scan, hc]
  | cons c' pre ih =>
    have h1 : markersOf c' = Option.none := hpre c' (List.mem_cons_self c' pre)
    simp only [List.cons_append, CheckMarkers.scan, h1]
    exact ih (fun x hx => hpre x (List.mem_cons_of_mem _ hx))

/-- Helper: a contract of any category other than HAS and PURE contributes
no marker set. -/
theorem markersOf_eq_none (c : Contract) (h1 : c.category ≠ Category.Has)
    (h2 : c.category ≠ Category.Pure) : markersOf c = Option.none := by
  unfold markersOf
  cases hcat : c.category <;> simp_all

/-- Helper: scanning contracts none of which is HAS or PURE yields nothing. -/
theorem checkMarkers_scan_none (func : Func) (cs : List Contract)
    (h : ∀ c ∈ cs, markersOf c = Option.none) :
    CheckMarkers.scan func cs = [] := by
  induction cs with
  | nil => rfl
  | cons c cs ih =>
    have h1 : markersOf c = Option.none := h c (List.mem_cons_self c cs)
    simp only [CheckMarkers.scan, h1]
    exact ih (fun x hx => h x (List.mem_cons_of_mem _ hx))

/-- C3: with a declared marker set derived from the first HAS contract (its
listed markers) or PURE contract (the empty list), every extracted marker
token outside the declared set yields a diagnostic with its
marker-specific sub-code, falling back to 40 for unrecognized names; a
function with neither a HAS nor a PURE contract yields no diagnostics
from this rule. -/
theorem claim_c3_marker_codes (func : Func) :
    ((∀ c ∈ func.contracts, c.category ≠ Category.Has ∧
        c.category ≠ Category.Pure) →
      CheckMarkers.call func = []) ∧
    (∀ pre c rest ms, func.contracts = pre ++ c :: rest →
      (∀ c' ∈ pre, markersOf c' = Option.none) →
      markersOf c = some ms →
      CheckMarkers.call func =
        (if !ms.contains "io" && !has_returns func.body then
          [⟨43, "missed marker", "io", func.line, func.col⟩]
        else []) ++
        ((get_markers func.body).filter
          (fun t => !ms.contains t.marker)).map
          (fun t => ⟨claimMarkerCode t.marker, "missed marker", t.marker,
            t.line, t.col⟩)) := by
  constructor
  · intro h
    unfold CheckMarkers.call
    exact checkMarkers_scan_none func func.contracts
      (fun c hc => markersOf_eq_none c (h c hc).1 (h c hc).2)
  · intro pre c rest ms h hpre hc
    unfold CheckMarkers.call
    rw [h, checkMarkers_scan_first func pre c rest ms hpre hc]
    unfold CheckMarkers.check
    have hf : ∀ t : MarkerToken,
        (if Has.hasMarker ⟨ms⟩ t.marker then Option.none
         else some (⟨(CheckMarkers.codes.lookup t.marker).getD 40,
           CheckMarkers.message, t.marker, t.line, t.col⟩ : Error)) =
        if !ms.contains t.marker then
          some ⟨claimMarkerCode t.marker, "missed marker", t.marker,
            t.line, t.col⟩
        else Option.none := by
      intro t
      by_cases hm : t.marker ∈ ms
      · simp [Has.hasMarker, hm]
      · simp [Has.hasMarker, hm, CheckMarkers.message, codes_lookup_eq]
    rw [filterMap_eq_filter_map _ _ _ hf (get_markers func.body)]
    rfl

/-- A HAS contract declaring the single marker `stdout`. -/
def contractHasStdout : Contract :=
  ⟨Category.Has, [ContractArg.strLit "stdout"], [],
    fun _ _ => RunResult.ok (PyValue.bool true), []⟩

/-- A body touching the network and then returning a literal. -/
def bodyNetworkRet : Body :=
  Body.cons (Stmt.markerStmt 2 4 "network")
    (Body.cons (Stmt.ret 3 4 (some (PyValue.int 1))) Body.nil)

/-- A function with only a RAISES contract around `bodyNetworkRet`. -/
def funcNoHasPure : Func := ⟨"f", 1, 0, bodyNetworkRet, [contractRaisesVE]⟩

/-- A function declaring only `stdout` around `bodyNetworkRet`. -/
def funcHasStdout : Func := ⟨"f", 1, 0, bodyNetworkRet, [contractHasStdout]⟩

/-- Witness for C3: no HAS/PURE contract means no diagnostics; the
undeclared `network` marker is flagged with sub-code 48. -/
theorem claim_c3_marker_codes_witness :
    CheckMarkers.call funcNoHasPure = [] ∧
    CheckMarkers.call funcHasStdout =
      [⟨48, "missed marker", "network", 2, 4⟩] := by
  constructor
  · exact (claim_c3_marker_codes funcNoHasPure).1 (by decide)
  · rw [(claim_c3_marker_codes funcHasStdout).2 [] contractHasStdout []
      ["stdout"] rfl (by simp) rfl]
    rfl

/-- Whether a diagnostic is the io diagnostic placed at the function's own
position: code 43, value `io`, the function's row and column. -/
def ioDiagAt (func : Func) (e : Error) : Bool :=
  (e.code == 43) && (e.value == "io") && (e.row == func.line) &&
    (e.col == func.col)

/-- C4: for a function whose declared marker set (from its first HAS or
PURE contract) does not include `io`, exactly one diagnostic with code 43
and value `io` is emitted at the function's position when not every
terminal path of the body returns, and none when every terminal path
returns.  (Marker tokens sit at their own body positions, distinct from
the function's.) -/
theorem claim_c4_io_return (func : Func) (pre : List Contract) (c : Contract)
    (rest : List Contract) (ms : List String)
    (h : func.contracts = pre ++ c :: rest)
    (hpre : ∀ c' ∈ pre, markersOf c' = Option.none)
    (hc : markersOf c = some ms)
    (hio : ms.contains "io" = false)
    (hpos : ∀ t ∈ get_markers func.body,
      t.line ≠ func.line ∨ t.col ≠ func.col) :
    (CheckMarkers.call func).countP (ioDiagAt func) =
      if has_returns func.body then 0 else 1 := by
  unfold CheckMarkers.call
  rw [h, checkMarkers_scan_first func pre c rest ms hpre hc]
  unfold CheckMarkers.check
  rw [List.countP_append]
  have hmz : ((get_markers func.body).filterMap (fun token =>
      if Has.hasMarker ⟨ms⟩ token.marker then Option.none
      else some ⟨(CheckMarkers.codes.lookup token.marker).getD 40,
        CheckMarkers.message, token.marker, token.line, token.col⟩)).countP
        (ioDiagAt func) = 0 := by
    generalize hg : get_markers func.body = l at hpos
    clear hg
    induction l with
    | nil => rfl
    | cons t l ih =>
      rw [List.filterMap_cons]
      have ht := hpos t (List.mem_cons_self t l)
      have ihl := ih (fun x hx => hpos x (List.mem_cons_of_mem _ hx))
      by_cases hm : Has.hasMarker ⟨ms⟩ t.marker = true
      · simp only [hm, if_pos]
        exact ihl
      · simp only [Bool.not_eq_true] at hm
        simp only [hm, Bool.false_eq_true, if_false, List.countP_cons, ihl]
        have hp : ioDiagAt func ⟨(CheckMarkers.codes.lookup t.marker).getD 40,
            CheckMarkers.message, t.marker, t.line, t.col⟩ = false := by
          unfold ioDiagAt
          rcases ht with hl | hcc
          · simp [Nat.ne_iff_lt_or_gt.mp hl, hl]
          · simp [hcc]
        simp [hp]
  rw [hmz]
  have hioMarker : Has.hasMarker ⟨ms⟩ "io" = false := hio
  by_cases hr : has_returns func.body = true
  · simp [hioMarker, hr]
  · simp only [Bool.not_eq_true] at hr
    have h43 : (CheckMarkers.codes.lookup "io").getD 40 = 43 := by decide
    simp [hioMarker, hr, h43, ioDiagAt]

/-- A PURE contract. -/
def contractPureC : Contract :=
  ⟨Category.Pure, [], [], fun _ _ => RunResult.ok (PyValue.bool true), []⟩

/-- A function under PURE whose body prints and never returns. -/
def funcPureNoRet : Func :=
  ⟨"f", 1, 0, Body.cons (Stmt.markerStmt 2 4 "stdout") Body.nil,
    [contractPureC]⟩

/-- Witness for C4: the claimed-pure function without a return is flagged
at its own position exactly once. -/
theorem claim_c4_io_return_witness :
    (CheckMarkers.call funcPureNoRet).countP (ioDiagAt funcPureNoRet) = 1 := by
  have h := claim_c4_io_return funcPureNoRet [] contractPureC [] []
    rfl (by simp) rfl (by decide) (by decide)
  simpa using h

/-- C10: the marker rule derives the declared marker set exclusively from
the first HAS or PURE contract in declaration order and stops there, so
its whole output is determined by that contract's marker set — markers
listed only on later HAS or PURE contracts have no effect. -/
theorem claim_c10_first_marker_contract (func : Func) (pre : List Contract)
    (c : Contract) (rest : List Contract) (ms : List String)
    (h : func.contracts = pre ++ c :: rest)
    (hpre : ∀ c' ∈ pre, markersOf c' = Option.none)
    (hc : markersOf c = some ms) :
    CheckMarkers.call func = CheckMarkers.check func ⟨ms⟩ := by
  unfold CheckMarkers.call
  rw [h]
  exact checkMarkers_scan_first func pre c rest ms hpre hc

/-- A HAS contract declaring the single marker `io`. -/
def contractHasIoMarker : Contract :=
  ⟨Category.Has, [ContractArg.strLit "io"], [],
    fun _ _ => RunResult.ok (PyValue.bool true), []⟩

/-- A HAS contract declaring the single marker `network`. -/
def contractHasNetwork : Contract :=
  ⟨Category.Has, [ContractArg.strLit "network"], [],
    fun _ _ => RunResult.ok (PyValue.bool true), []⟩

/-- A function with two HAS contracts; only the first one counts. -/
def funcTwoHas : Func :=
  ⟨"f", 1, 0, Body.cons (Stmt.markerStmt 2 4 "network") Body.nil,
    [contractHasIoMarker, contractHasNetwork]⟩

/-- Witness for C10: with HAS(io) before HAS(network), the rule behaves as
if only `io` were declared, and the body's network marker is still
flagged even though the second contract lists it. -/
theorem claim_c10_first_marker_contract_witness :
    CheckMarkers.call funcTwoHas = CheckMarkers.check funcTwoHas ⟨["io"]⟩ ∧
    CheckMarkers.call funcTwoHas =
      [⟨48, "missed marker", "network", 2, 4⟩] := by
  constructor
  · exact claim_c10_first_marker_contract funcTwoHas [] contractHasIoMarker
      [contractHasNetwork] ["io"] rfl (by simp) rfl
  · rfl

/-- C5: for an EXAMPLE contract whose argument is a validator lambda
matching the self-call pattern, the example rule reconstructs the Example
and re-validates it against every PRE contract with the example's
arguments, every POST contract with the example's result (skipped when the
result is UNKNOWN), and every ENSURE contract with the example's arguments
plus the result bound under the key `result` (skipped when UNKNOWN), one
diagnostic per violated contract; the rule runs this for every EXAMPLE
contract of the function. -/
theorem claim_c5_examples (func : Func) (contract : Contract)
    (line col : Nat) (lb : LamBody) (rest : List ContractArg) (ex : Example)
    (hargs : contract.args = ContractArg.lam line col lb :: rest)
    (hex : get_example lb func.name = some ex) :
    CheckExamples.check func contract =
      func.contracts.flatMap (fun other =>
        (if other.category = Category.Pre then
          (Rule.validate 13 "example violates contract" other
            ex.args ex.kwargs line col "deal.pre").toList
        else []) ++
        (if other.category = Category.Post then
          match ex.result with
          | ExampleResult.unknown => []
          | ExampleResult.val v =>
            (Rule.validate 13 "example violates contract" other
              [v] [] line col "deal.post").toList
        else []) ++
        (if other.category = Category.Ensure then
          match ex.result with
          | ExampleResult.unknown => []
          | ExampleResult.val v =>
            (Rule.validate 13 "example violates contract" other
              ex.args (withResult ex.kwargs v) line col "deal.ensure").toList
        else [])) ∧
    CheckExamples.call func =
      func.contracts.flatMap (fun ct =>
        if ct.category = Category.Example then CheckExamples.check func ct
        else []) := by
  constructor
  · have h1 : CheckExamples.check func contract =
        func.contracts.flatMap (CheckExamples.checkOther ex line col) := by
      unfold CheckExamples.check
      rw [hargs]
      simp [hex]
    rw [h1]
    rfl
  · rfl

/-- The validator lambda of an EXAMPLE contract: `lambda: f(2) == 4`. -/
def exampleLam : LamBody :=
  LamBody.selfCall "f" [PyValue.int 2] [] (ExampleResult.val (PyValue.int 4))

/-- The reconstructed example for `exampleLam`. -/
def exampleRec : Example :=
  ⟨[PyValue.int 2], [], ExampleResult.val (PyValue.int 4)⟩

/-- An EXAMPLE contract holding `exampleLam`. -/
def contractExample : Contract :=
  ⟨Category.Example, [ContractArg.lam 5 0 exampleLam], [],
    fun _ _ => RunResult.ok (PyValue.bool true), []⟩

/-- A POST contract whose validator requires the result to exceed 10. -/
def contractPostGt10 : Contract :=
  ⟨Category.Post, [], [],
    fun args _ =>
      match args with
      | [PyValue.int n] => RunResult.ok (PyValue.bool (10 < n))
      | _ => RunResult.ok (PyValue.bool false),
    []⟩

/-- A function with the example `f(2) == 4` and a POST contract the
example violates. -/
def funcExample : Func :=
  ⟨"f", 1, 0, Body.nil, [contractExample, contractPostGt10]⟩

/-- Witness for C5: the example's result 4 violates the POST contract and
yields exactly one diagnostic at the lambda's position. -/
theorem claim_c5_examples_witness :
    CheckExamples.check funcExample contractExample =
      [⟨13, "example violates contract", "deal.post", 5, 0⟩] := by
  rw [(claim_c5_examples funcExample contractExample 5 0 exampleLam []
    exampleRec rfl rfl).1]
  rfl

/-- Helper: when every raised-error category of the body is already
declared, the transformer leaves the function definition unchanged. -/
theorem transformFuncDef_covered (f : FuncDef)
    (h : ∀ e ∈ (get_exceptions [] f.body).map (fun t => t.value),
      e ∈ declaredRaises f.decos) :
    transformFuncDef f = f := by
  have hnil : missingRaises f = [] := by
    refine List.filter_eq_nil_iff.mpr ?_
    intro e he
    have hm : e ∈ (get_exceptions [] f.body).map (fun t => t.value) :=
      List.mem_dedup.mp he
    simp [h e hm]
  simp [transformFuncDef, hnil]

/-- Helper: the transformer is idempotent on one function definition. -/
theorem transformFuncDef_idem (f : FuncDef) :
    transformFuncDef (transformFuncDef f) = transformFuncDef f := by
  by_cases hm : (missingRaises f).isEmpty = true
  · have h1 : transformFuncDef f = f := by
      simp [transformFuncDef, hm]
    rw [h1, h1]
  · have h1 : transformFuncDef f =
        ⟨Deco.raisesDeco (missingRaises f) :: f.decos, f.name, f.body⟩ := by
      simp only [Bool.not_eq_true] at hm
      simp [transformFuncDef, hm]
    rw [h1]
    apply transformFuncDef_covered
    intro e he
    have hdr : declaredRaises (Deco.raisesDeco (missingRaises f) :: f.decos) =
        missingRaises f ++ declaredRaises f.decos := rfl
    rw [hdr, List.mem_append]
    by_cases hd : e ∈ declaredRaises f.decos
    · exact Or.inr hd
    · left
      refine List.mem_filter.mpr ⟨List.mem_dedup.mpr he, ?_⟩
      simp [hd]

/-- Helper: the transformer is idempotent on one module item. -/
theorem itemTransform_idem (it : ModItem) :
    itemTransform (itemTransform it) = itemTransform it := by
  cases it with
  | funcItem f => simp [itemTransform, transformFuncDef_idem]
  | textItem s => rfl

/-- C8: a function with no declared contracts whose body raises
`ValueError` gets exactly one new RAISES attachment listing that error
inserted above it, with name and body unchanged; a function whose raised
errors are all declared (in particular one with no body-level raises) is
returned unchanged; and re-applying the transformer to its own output
changes nothing. -/
theorem claim_c8_transformer :
    (∀ f : FuncDef, f.decos = [] →
      ((get_exceptions [] f.body).map (fun t => t.value)).dedup =
        [ExcValue.typ PyType.valueError] →
      transformFuncDef f =
        ⟨[Deco.raisesDeco [ExcValue.typ PyType.valueError]], f.name, f.body⟩) ∧
    (∀ f : FuncDef,
      (∀ e ∈ (get_exceptions [] f.body).map (fun t => t.value),
        e ∈ declaredRaises f.decos) →
      transformFuncDef f = f) ∧
    (∀ m : Module, transform (transform m) = transform m) := by
  refine ⟨?_, ?_, ?_⟩
  · intro f hdecos hdedup
    have hm : missingRaises f = [ExcValue.typ PyType.valueError] := by
      unfold missingRaises
      rw [hdedup, hdecos]
      rfl
    simp [transformFuncDef, hm, hdecos]
  · exact fun f h => transformFuncDef_covered f h
  · intro m
    induction m with
    | nil => rfl
    | cons it m ih =>
      show itemTransform (itemTransform it) :: transform (transform m) =
        itemTransform it :: transform m
      rw [itemTransform_idem, ih]

/-- A function definition with no decorators that raises `ValueError`. -/
def fdefPlain : FuncDef := ⟨[], "f", bodyRaiseVE⟩

/-- The same function with the RAISES attachment already declared. -/
def fdefDeclared : FuncDef :=
  ⟨[Deco.raisesDeco [ExcValue.typ PyType.valueError]], "f", bodyRaiseVE⟩

/-- A module with surrounding text and the undeclared-raise function. -/
def moduleSample : Module :=
  [ModItem.textItem "import deal", ModItem.funcItem fdefPlain]

/-- Witness for C8 on concrete module source: the missing attachment is
inserted once, the fully declared function is untouched, and a second
transformer run is a no-op. -/
theorem claim_c8_transformer_witness :
    transformFuncDef fdefPlain =
      ⟨[Deco.raisesDeco [ExcValue.typ PyType.valueError]], "f", bodyRaiseVE⟩ ∧
    transformFuncDef fdefDeclared = fdefDeclared ∧
    transform (transform moduleSample) = transform moduleSample :=
  ⟨claim_c8_transformer.1 fdefPlain rfl (by decide),
   claim_c8_transformer.2.1 fdefDeclared (by decide),
   claim_c8_transformer.2.2 moduleSample⟩

end Deal
